import Mathlib

/-!
Verification of the rlgym-ppo core: the `ExperienceBuffer`
(src/rlgym_ppo/ppo/experience_buffer.py) and the `Learner` orchestration
(src/rlgym_ppo/learner.py), shallowly embedded as pure Lean functions.
Tensors are modelled as lists of their leading-axis entries (one entry per
environment transition); concatenation along axis 0 is list append, python
slicing `x[start:]` is `List.drop`, fancy-indexing `x[indices]` maps the
index list over positional lookup.
-/

namespace RlgymPPO

/-- State of a buffer-private `np.random.RandomState`: the seed it was
constructed with, and how many raw draws have been consumed so far. -/
structure RandomState where
  seed : Nat
  counter : Nat
deriving DecidableEq, Repr

/-- Modelled stream of raw draws produced by `np.random.RandomState(seed)`
(an external library, MT19937): an arbitrary fixed deterministic mixing
function of the seed and the draw index. Every claim about the shuffle
depends only on the draws being a deterministic function of
(seed, draw index), never on their exact values. -/
def randStream (seed i : Nat) : Nat :=
  (seed * 2654435761 + i * 40503 + 12345) % 4294967296

/-- Exchange the entries at positions `i` and `j` of a list (positions past
the end leave the list unchanged, as both callers keep indices in range). -/
def listSwap (l : List Nat) (i j : Nat) : List Nat :=
  let vi := l.getD i 0
  let vj := l.getD j 0
  (l.set i vj).set j vi

/-- The Fisher-Yates loop of `np.random.RandomState.shuffle`, walking the
index `i` from the top of the list down to 1 and exchanging position `i`
with a drawn position `j ≤ i`; each step consumes one raw draw. -/
def fyAux : RandomState → List Nat → Nat → RandomState × List Nat
  | rs, l, 0 => (rs, l)
  | rs, l, (i+1) =>
      let j := randStream rs.seed rs.counter % (i + 2)
      fyAux ⟨rs.seed, rs.counter + 1⟩ (listSwap l (i+1) j) i

/-- `np.random.RandomState.shuffle`: an in-place Fisher-Yates pass over the
whole list, returning the advanced generator state and the permuted list. -/
def npShuffle (rs : RandomState) (l : List Nat) : RandomState × List Nat :=
  fyAux rs l (l.length - 1)

/-- `ExperienceBuffer.__init__` / field layout
(src/rlgym_ppo/ppo/experience_buffer.py lines 16-29): nine resident
sequences, the capacity, the construction seed and device, and the
buffer-private generator seeded with the construction seed. -/
structure ExperienceBuffer (T : Type) where
  device : String
  seed : Nat
  states : List T
  actions : List T
  log_probs : List T
  rewards : List T
  next_states : List T
  dones : List T
  truncated : List T
  values : List T
  advantages : List T
  max_size : Nat
  rng : RandomState
deriving DecidableEq, Repr

/-- `ExperienceBuffer(max_size, seed, device)`: all nine sequences start
empty, the private generator starts at `RandomState(seed)`. -/
def ExperienceBuffer.init (T : Type) (max_size seed : Nat) (device : String) :
    ExperienceBuffer T :=
  { device := device, seed := seed
    states := [], actions := [], log_probs := [], rewards := []
    next_states := [], dones := [], truncated := [], values := []
    advantages := []
    max_size := max_size
    rng := ⟨seed, 0⟩ }

/-- `ExperienceBuffer._clamp_size` (lines 109-127): when the length of
`actions` exceeds `max_size`, drop the oldest `start` entries of the
sequences the source trims.  The source trims `actions`, `log_probs`,
`rewards`, `states`, `next_states`, `dones`, `values` and `advantages`;
`truncated` is absent from the trimming block, so it is left untouched
here exactly as in the source. -/
def ExperienceBuffer._clamp_size {T : Type} (b : ExperienceBuffer T) :
    ExperienceBuffer T :=
  let start := b.actions.length - b.max_size
  if 0 < start then
    { b with
      actions := b.actions.drop start
      log_probs := b.log_probs.drop start
      rewards := b.rewards.drop start
      states := b.states.drop start
      next_states := b.next_states.drop start
      dones := b.dones.drop start
      values := b.values.drop start
      advantages := b.advantages.drop start }
  else b

/-- `ExperienceBuffer.submit_experience` (lines 31-57): concatenate each
argument onto the corresponding resident sequence along the time axis,
then clamp. -/
def ExperienceBuffer.submit_experience {T : Type} (b : ExperienceBuffer T)
    (states actions log_probs rewards next_states dones truncated values
      advantages : List T) : ExperienceBuffer T :=
  ExperienceBuffer._clamp_size
    { b with
      states := b.states ++ states
      actions := b.actions ++ actions
      log_probs := b.log_probs ++ log_probs
      rewards := b.rewards ++ rewards
      next_states := b.next_states ++ next_states
      dones := b.dones ++ dones
      truncated := b.truncated ++ truncated
      values := b.values ++ values
      advantages := b.advantages ++ advantages }

/-- One minibatch as built by `get_all_batches_shuffled`: the five fields
consumed by policy updates, in the order the source lists them. -/
structure MiniBatch (T : Type) where
  acts : List T
  probs : List T
  obs : List T
  vals : List T
  adv : List T
deriving DecidableEq, Repr

/-- Numpy fancy indexing `x[indices]` on the leading axis. -/
def tensorIndex {T : Type} [Inhabited T] (l : List T) (idx : List Nat) :
    List T :=
  idx.map (fun i => l.getD i default)

/-- The shuffled index list built by `get_all_batches_shuffled`
(lines 67-71): a list of indices for each entry of `rewards`, shuffled in
place by the buffer-private generator. -/
def ExperienceBuffer.shuffledIdx {T : Type} (b : ExperienceBuffer T) :
    List Nat :=
  (npShuffle b.rng (List.range b.rewards.length)).2

/-- `ExperienceBuffer.get_all_batches_shuffled` (lines 59-107): build the
index list over `rewards`, shuffle it with the buffer-private generator,
fancy-index the five consumed sequences, and emit `len // batch_size`
consecutive slices of size `batch_size`.  Returns the batches together
with the buffer, whose only changed field is the advanced generator. -/
def ExperienceBuffer.get_all_batches_shuffled {T : Type} [Inhabited T]
    (b : ExperienceBuffer T) (batch_size : Nat) :
    List (MiniBatch T) × ExperienceBuffer T :=
  ((List.range ((tensorIndex b.actions b.shuffledIdx).length / batch_size)).map
      (fun i =>
        { acts := ((tensorIndex b.actions b.shuffledIdx).drop
            (i * batch_size)).take batch_size
          probs := ((tensorIndex b.log_probs b.shuffledIdx).drop
            (i * batch_size)).take batch_size
          obs := ((tensorIndex b.states b.shuffledIdx).drop
            (i * batch_size)).take batch_size
          vals := ((tensorIndex b.values b.shuffledIdx).drop
            (i * batch_size)).take batch_size
          adv := ((tensorIndex b.advantages b.shuffledIdx).drop
            (i * batch_size)).take batch_size }),
    { b with rng := (npShuffle b.rng (List.range b.rewards.length)).1 })

/-- `ExperienceBuffer.clear` (lines 129-143): release every resident
sequence and re-run `__init__` with the stored capacity, seed and device. -/
def ExperienceBuffer.clear {T : Type} (b : ExperienceBuffer T) :
    ExperienceBuffer T :=
  ExperienceBuffer.init T b.max_size b.seed b.device

/-- One `submit_experience` call's arguments: nine parallel input
sequences. -/
structure Submission (T : Type) where
  states : List T
  actions : List T
  log_probs : List T
  rewards : List T
  next_states : List T
  dones : List T
  truncated : List T
  values : List T
  advantages : List T
deriving DecidableEq, Repr

/-- Apply one submission to a buffer. -/
def applySubmission {T : Type} (b : ExperienceBuffer T) (s : Submission T) :
    ExperienceBuffer T :=
  b.submit_experience s.states s.actions s.log_probs s.rewards s.next_states
    s.dones s.truncated s.values s.advantages

/-- Apply a whole sequence of submissions in order. -/
def applyAll {T : Type} (b : ExperienceBuffer T) (subs : List (Submission T)) :
    ExperienceBuffer T :=
  subs.foldl applySubmission b


/-- A buffer with `max_size = 1` that received a single submission of two
transitions (all nine inputs of length 2). -/
def c1Buf : ExperienceBuffer Nat :=
  (ExperienceBuffer.init Nat 1 0 "cpu").submit_experience
    [0, 1] [0, 1] [0, 1] [0, 1] [0, 1] [0, 1] [0, 1] [0, 1] [0, 1]


/-- The `k`-th batch of 200 transitions, numbered 200k .. 200k+199. -/
def c2Batch (k : Nat) : List Nat := List.range' (200 * k) 200

/-- Submit the `k`-th batch of 200 transitions into a buffer, with the same
numbering on all nine fields. -/
def c2Submit (b : ExperienceBuffer Nat) (k : Nat) : ExperienceBuffer Nat :=
  b.submit_experience (c2Batch k) (c2Batch k) (c2Batch k) (c2Batch k)
    (c2Batch k) (c2Batch k) (c2Batch k) (c2Batch k) (c2Batch k)

/-- A buffer with `max_size = 500` after three submissions of 200
transitions each (600 total). -/
def c2Buf : ExperienceBuffer Nat :=
  c2Submit (c2Submit (c2Submit (ExperienceBuffer.init Nat 500 0 "cpu") 0) 1) 2

/-- A one-submission history used to instantiate `shuffle_deterministic`. -/
def c4Sub : Submission Nat :=
  ⟨[1, 2], [3, 4], [5, 6], [7, 8], [9, 10], [11, 12], [13, 14], [15, 16],
    [17, 18]⟩

/-- The buffer obtained by replaying that history from a fresh buffer. -/
def c4Buf : ExperienceBuffer Nat :=
  applyAll (ExperienceBuffer.init Nat 3 5 "cpu") [c4Sub]


/-- A buffer holding five aligned transitions, used to instantiate the
minibatch-partition theorem. -/
def c3Buf : ExperienceBuffer Nat :=
  (ExperienceBuffer.init Nat 10 9 "cpu").submit_experience
    [0, 1, 2, 3, 4] [10, 11, 12, 13, 14] [20, 21, 22, 23, 24]
    [30, 31, 32, 33, 34] [40, 41, 42, 43, 44] [50, 51, 52, 53, 54]
    [60, 61, 62, 63, 64] [70, 71, 72, 73, 74] [80, 81, 82, 83, 84]

/-- `WelfordRunningStat` (rlgym_ppo.util): online mean/variance accumulator
in Welford form — count, running mean, running sum of squared deviations.
Scalars are modelled as exact rationals. -/
structure WelfordRunningStat where
  count : Nat
  mean : Rat
  m2 : Rat
deriving DecidableEq, Repr

/-- Modelled from the spec: `WelfordRunningStat.to_json` is not under src/
(only its caller `Learner.save` is); per the spec it "serializes to a small
JSON-compatible structure (count, mean, variance accumulator)". -/
def WelfordRunningStat.to_json (r : WelfordRunningStat) : Nat × Rat × Rat :=
  (r.count, r.mean, r.m2)

/-- Modelled from the spec: `WelfordRunningStat.from_json` is not under
src/; per the spec the stat "restores exactly" from the serialized
(count, mean, variance accumulator) structure. -/
def WelfordRunningStat.from_json (j : Nat × Rat × Rat) : WelfordRunningStat :=
  ⟨j.1, j.2.1, j.2.2⟩

/-- The variance the accumulator represents: the sum of squared deviations
divided by the count. -/
def WelfordRunningStat.var (r : WelfordRunningStat) : Rat :=
  r.m2 / r.count

/-- The bookkeeping document `BOOK_KEEPING_VARS.json` written by
`Learner.save` (learner.py lines 321-337), without the optional
external-tracking identifier block. -/
structure BookKeepingVars where
  cumulative_timesteps : Nat
  cumulative_model_updates : Nat
  policy_average_reward : Option Rat
  epoch : Nat
  running_stats : Nat × Rat × Rat
deriving DecidableEq, Repr

/-- The Learner fields that `save` persists and `load` restores:
`agent.cumulative_timesteps`, `agent.average_reward`,
`ppo_learner.cumulative_model_updates`, `epoch` and `return_stats`. -/
structure LearnerCkState where
  agent_cumulative_timesteps : Nat
  agent_average_reward : Option Rat
  ppo_cumulative_model_updates : Nat
  epoch : Nat
  return_stats : WelfordRunningStat
deriving DecidableEq, Repr

/-- The bookkeeping record assembled by `Learner.save`
(learner.py lines 321-327). -/
def Learner.saveBookKeeping (st : LearnerCkState) : BookKeepingVars :=
  { cumulative_timesteps := st.agent_cumulative_timesteps
    cumulative_model_updates := st.ppo_cumulative_model_updates
    policy_average_reward := st.agent_average_reward
    epoch := st.epoch
    running_stats := st.return_stats.to_json }

/-- The field restoration performed by `Learner.load`
(learner.py lines 359-367). -/
def Learner.loadBookKeeping (st : LearnerCkState) (bk : BookKeepingVars) :
    LearnerCkState :=
  { st with
    agent_cumulative_timesteps := bk.cumulative_timesteps
    agent_average_reward := bk.policy_average_reward
    ppo_cumulative_model_updates := bk.cumulative_model_updates
    return_stats := WelfordRunningStat.from_json bk.running_stats
    epoch := bk.epoch }

/-- `os.makedirs(..., exist_ok=True)` on the checkpoint folder, with the
set of checkpoint directories kept as a strictly sorted list of their
integer names (the source reads the names back with `int(...)` and sorts,
so a sorted duplicate-free list is the canonical directory listing). -/
def insertDir (key : Nat) : List Nat → List Nat
  | [] => [key]
  | d :: ds =>
      if key < d then key :: d :: ds
      else if key = d then d :: ds
      else d :: insertDir key ds

/-- The directory-retention effect of one `Learner.save(key)` call
(learner.py lines 299-317): create the keyed directory, list the existing
checkpoint names as integers, and when there are more than
`n_checkpoints_to_keep` delete the numerically smallest ones beyond the
keep-count; finally re-create the keyed directory (the source repeats
`os.makedirs(folder_path, exist_ok=True)` after the deletion loop). -/
def saveRetention (K : Nat) (dirs : List Nat) (key : Nat) : List Nat :=
  let dirs1 := insertDir key dirs
  if K < dirs1.length then
    insertDir key (dirs1.drop (dirs1.length - K))
  else dirs1

/-- The checkpoint directories present after saving the given keys in
order into an initially empty save folder. -/
def saveRun (K : Nat) (keys : List Nat) : List Nat :=
  keys.foldl (saveRetention K) []

/-- A metric value dispatched to the reporting sink: a numeric value or
the not-available sentinel `np.nan`. -/
inductive Metric where
  | nan : Metric
  | val : Rat → Metric
deriving DecidableEq, Repr

/-- Python dict assignment `report[k] = v` on an insertion-ordered mapping
with unique keys: overwrite the existing entry or append a new one. -/
def setKey (r : List (String × Metric)) (k : String) (v : Metric) :
    List (String × Metric) :=
  if r.any (fun p => p.1 = k) then
    r.map (fun p => if p.1 = k then (k, v) else p)
  else r ++ [(k, v)]

/-- Python dict lookup `report[k]`: the first entry with the key. -/
def getKey : List (String × Metric) → String → Option Metric
  | [], _ => none
  | p :: r, k => if p.1 = k then some p.2 else getKey r k

/-- The metrics mapping assembled by one iteration of `Learner._learn`
(learner.py lines 190, 208-222): start from the update collaborator's
report (`report |= ppo_report` with `report = {}`), force the value
function loss to `np.nan` on the first epoch, then add the loop-local
timing/throughput metrics and the policy reward (or `np.nan` before any
reward signal exists). -/
def buildReport (epoch : Nat) (ppo_report : List (String × Metric))
    (cumulative_timesteps steps_collected : Nat)
    (epoch_time collection_time : Rat) (average_reward : Option Rat) :
    List (String × Metric) :=
  let r0 := ppo_report
  let r1 := if epoch < 1 then setKey r0 "Value Function Loss" Metric.nan
    else r0
  let r2 := setKey r1 "Cumulative Timesteps" (Metric.val cumulative_timesteps)
  let r3 := setKey r2 "Total Iteration Time" (Metric.val epoch_time)
  let r4 := setKey r3 "Timesteps Collected" (Metric.val steps_collected)
  let r5 := setKey r4 "Timestep Collection Time" (Metric.val collection_time)
  let r6 := setKey r5 "Timestep Consumption Time"
    (Metric.val (epoch_time - collection_time))
  let r7 := setKey r6 "Collected Steps per Second"
    (Metric.val (steps_collected / collection_time))
  let r8 := setKey r7 "Overall Steps per Second"
    (Metric.val (steps_collected / epoch_time))
  setKey r8 "Policy Reward"
    (match average_reward with
      | some r => Metric.val r
      | none => Metric.nan)

/-- The Learner-owned resources touched by `Learner.cleanup`: the optional
external tracking run (`wandb_run`), the collector
(`BatchedAgentManager`), and the experience buffer, plus the console log
that records printed tracebacks. -/
structure TrainState (T : Type) where
  wandb_active : Bool
  wandb_finished : Bool
  agent_is_batched : Bool
  agent_released : Bool
  exp_buffer : ExperienceBuffer T
  error_log : List String

/-- `Learner.cleanup` (learner.py lines 383-393): finish the tracking run
when one is attached, release the collector when it is a
`BatchedAgentManager`, and clear the experience buffer. -/
def Learner.cleanup {T : Type} (s : TrainState T) : TrainState T :=
  { s with
    wandb_finished := if s.wandb_active then true else s.wandb_finished
    agent_released := if s.agent_is_batched then true else s.agent_released
    exp_buffer := s.exp_buffer.clear }

/-- Outcome of running the epoch loop body (learner.py lines 188-236): it
either finishes normally at the timestep limit or raises, in both cases
leaving the Learner's resources in some state. -/
inductive LoopOutcome (T : Type) where
  | ok : TrainState T → LoopOutcome T
  | error : String → TrainState T → LoopOutcome T

/-- `Learner._learn` (lines 180-237) given the loop body as an opaque
state transition: on a normal exit at the timestep limit it additionally
runs `self.cleanup()` (line 237); an exception escapes unchanged. -/
def Learner._learnRun {T : Type} (body : TrainState T → LoopOutcome T)
    (s : TrainState T) : LoopOutcome T :=
  match body s with
  | LoopOutcome.ok s' => LoopOutcome.ok (Learner.cleanup s')
  | LoopOutcome.error e s' => LoopOutcome.error e s'

/-- `traceback.print_exc()` (line 176): the trace reaches the console
log. -/
def logTrace {T : Type} (s : TrainState T) (e : String) : TrainState T :=
  { s with error_log := s.error_log ++ [e] }

/-- `Learner.learn` (lines 164-178): run `_learn` under a single
try/except/finally guard — any exception is caught, its trace printed,
and `cleanup` runs unconditionally before control returns (the exception
is not re-raised and the body is not retried). -/
def Learner.learn {T : Type} (body : TrainState T → LoopOutcome T)
    (s : TrainState T) : TrainState T :=
  match Learner._learnRun body s with
  | LoopOutcome.ok s' => Learner.cleanup s'
  | LoopOutcome.error e s' => Learner.cleanup (logTrace s' e)

/-- A loop body that raises, used to instantiate the cleanup theorem. -/
def c9Body : TrainState Nat → LoopOutcome Nat :=
  fun s => LoopOutcome.error "LEARNING LOOP ENCOUNTERED AN ERROR"
    { s with exp_buffer := applySubmission s.exp_buffer c4Sub }

/-- A concrete starting state for the cleanup theorem. -/
def c9State : TrainState Nat :=
  { wandb_active := true
    wandb_finished := false
    agent_is_batched := true
    agent_released := false
    exp_buffer := c4Buf
    error_log := [] }

/-! Lemmas and claim theorems. -/

/-! Basic facts about `listSwap`, `fyAux` and `npShuffle`: the shuffle is a
permutation, preserves the length, and advances the generator by one raw
draw per Fisher-Yates step. -/

theorem listSwap_length (l : List Nat) (i j : Nat) :
    (listSwap l i j).length = l.length := by
  simp [listSwap]

theorem set_getD_self (l : List Nat) (i : Nat) (h : i < l.length) :
    l.set i (l.getD i 0) = l := by
  induction l generalizing i with
  | nil => simp at h
  | cons x t ih =>
    cases i with
    | zero => simp
    | succ k =>
      simp only [List.getD_cons_succ, List.set_cons_succ, List.cons.injEq,
        true_and]
      exact ih k (by simpa using h)

theorem swap_zero_perm (t : List Nat) (k : Nat) (x : Nat) (hk : k < t.length) :
    (t.getD k 0 :: t.set k x).Perm (x :: t) := by
  induction t generalizing k with
  | nil => simp at hk
  | cons y ys ih =>
    cases k with
    | zero => simpa using List.Perm.swap x y ys
    | succ m =>
      have hm : m < ys.length := by simpa using hk
      have s1 : (ys.getD m 0 :: y :: ys.set m x).Perm
          (y :: ys.getD m 0 :: ys.set m x) := List.Perm.swap y (ys.getD m 0) _
      have s2 : (y :: ys.getD m 0 :: ys.set m x).Perm (y :: x :: ys) :=
        (ih m hm).cons y
      have s3 : (y :: x :: ys).Perm (x :: y :: ys) := List.Perm.swap x y ys
      exact (s1.trans s2).trans s3

theorem listSwap_perm_lt (l : List Nat) (i j : Nat) (hij : i < j)
    (hj : j < l.length) : (listSwap l i j).Perm l := by
  induction l generalizing i j with
  | nil => simp at hj
  | cons x t ih =>
    cases i with
    | zero =>
      cases j with
      | zero => exact absurd hij (by omega)
      | succ m =>
        have hm : m < t.length := by simpa using hj
        simpa [listSwap] using swap_zero_perm t m x hm
    | succ k =>
      cases j with
      | zero => exact absurd hij (by omega)
      | succ m =>
        have hm : m < t.length := by simpa using hj
        have hkm : k < m := by omega
        have step : listSwap (x :: t) (k+1) (m+1) = x :: listSwap t k m := by
          simp [listSwap]
        rw [step]
        exact (ih k m hkm hm).cons x

theorem listSwap_perm (l : List Nat) (i j : Nat) (hi : i < l.length)
    (hj : j < l.length) : (listSwap l i j).Perm l := by
  rcases Nat.lt_trichotomy i j with h | h | h
  · exact listSwap_perm_lt l i j h hj
  · subst h
    have : listSwap l i i = l := by
      simp only [listSwap, List.set_set]
      exact set_getD_self l i hi
    rw [this]
  · have hcomm : listSwap l i j = listSwap l j i := by
      simp only [listSwap]
      exact List.set_comm _ _ l (by omega)
    rw [hcomm]
    exact listSwap_perm_lt l j i h hi

theorem fyAux_perm (n : Nat) (rs : RandomState) (l : List Nat)
    (h : n < l.length) : ((fyAux rs l n).2).Perm l := by
  induction n generalizing rs l with
  | zero => simp [fyAux]
  | succ i ih =>
    rw [fyAux]
    have hj : randStream rs.seed rs.counter % (i + 2) < l.length :=
      lt_of_lt_of_le (Nat.mod_lt _ (by omega)) (by omega)
    have hswap : (listSwap l (i+1) (randStream rs.seed rs.counter % (i + 2))).Perm l :=
      listSwap_perm l _ _ h hj
    have hlen : i < (listSwap l (i+1) (randStream rs.seed rs.counter % (i + 2))).length := by
      rw [listSwap_length]; omega
    exact (ih _ _ hlen).trans hswap

theorem npShuffle_perm (rs : RandomState) (l : List Nat) :
    ((npShuffle rs l).2).Perm l := by
  cases l with
  | nil => simp [npShuffle, fyAux]
  | cons x t =>
    exact fyAux_perm _ rs (x :: t) (by simp)

theorem fyAux_length (n : Nat) (rs : RandomState) (l : List Nat) :
    ((fyAux rs l n).2).length = l.length := by
  induction n generalizing rs l with
  | zero => simp [fyAux]
  | succ i ih => rw [fyAux]; rw [ih, listSwap_length]

theorem npShuffle_length (rs : RandomState) (l : List Nat) :
    ((npShuffle rs l).2).length = l.length := fyAux_length _ rs l

theorem fyAux_rng (n : Nat) (rs : RandomState) (l : List Nat) :
    (fyAux rs l n).1 = ⟨rs.seed, rs.counter + n⟩ := by
  induction n generalizing rs l with
  | zero => simp [fyAux]
  | succ i ih =>
    rw [fyAux, ih]
    simp [Nat.add_assoc, Nat.add_comm 1 i]

theorem npShuffle_rng (rs : RandomState) (l : List Nat) :
    (npShuffle rs l).1 = ⟨rs.seed, rs.counter + (l.length - 1)⟩ :=
  fyAux_rng _ rs l


/-- C1: eviction does NOT trim all nine sequences atomically: after one
oversized submission, `_clamp_size` trims eight sequences to length
`max_size` but leaves `truncated` at its full submitted length, so the
nine resident sequences do not have equal length. -/
theorem c1_clamp_misses_truncated :
    c1Buf.states.length = 1 ∧ c1Buf.actions.length = 1 ∧
    c1Buf.log_probs.length = 1 ∧ c1Buf.rewards.length = 1 ∧
    c1Buf.next_states.length = 1 ∧ c1Buf.dones.length = 1 ∧
    c1Buf.values.length = 1 ∧ c1Buf.advantages.length = 1 ∧
    c1Buf.truncated.length = 2 := by decide


set_option maxRecDepth 40000 in
/-- C2: in the end-to-end scenario (max_size 500, three batches of 200) the
eight trimmed sequences do hold exactly transitions 100-599 in order, but
`truncated` still holds all 600 submitted transitions, so the buffer's
resident length is not uniformly `max_size`. -/
theorem c2_fifo_window_except_truncated :
    c2Buf.states = List.range' 100 500 ∧
    c2Buf.actions = List.range' 100 500 ∧
    c2Buf.log_probs = List.range' 100 500 ∧
    c2Buf.rewards = List.range' 100 500 ∧
    c2Buf.next_states = List.range' 100 500 ∧
    c2Buf.dones = List.range' 100 500 ∧
    c2Buf.values = List.range' 100 500 ∧
    c2Buf.advantages = List.range' 100 500 ∧
    c2Buf.truncated = List.range' 0 600 := by decide


/-- C3: on a buffer holding `N` aligned transitions,
`get_all_batches_shuffled batch_size` yields exactly `N / batch_size`
minibatches of exactly `batch_size` transitions each; the batches are the
consecutive `batch_size`-chunks of a duplicate-free selection `sel` of
`N / batch_size * batch_size` indices (so every included index appears in
exactly one minibatch), and the `N % batch_size` remainder indices `rem`
appear in no batch. -/
theorem minibatch_partition {T : Type} [Inhabited T] (b : ExperienceBuffer T)
    (N batch_size : Nat) (hbs : 1 ≤ batch_size)
    (hs : b.states.length = N) (ha : b.actions.length = N)
    (hl : b.log_probs.length = N) (hr : b.rewards.length = N)
    (hns : b.next_states.length = N) (hd : b.dones.length = N)
    (ht : b.truncated.length = N) (hv : b.values.length = N)
    (hadv : b.advantages.length = N) :
    (b.get_all_batches_shuffled batch_size).1.length = N / batch_size ∧
    (∀ mb ∈ (b.get_all_batches_shuffled batch_size).1,
      mb.acts.length = batch_size ∧ mb.probs.length = batch_size ∧
      mb.obs.length = batch_size ∧ mb.vals.length = batch_size ∧
      mb.adv.length = batch_size) ∧
    ∃ sel rem : List Nat,
      (sel ++ rem).Perm (List.range N) ∧ sel.Nodup ∧
      sel.length = N / batch_size * batch_size ∧
      rem.length = N % batch_size ∧
      (∀ j ∈ rem, ∀ k, k < N / batch_size →
        j ∉ (sel.drop (k * batch_size)).take batch_size) ∧
      (b.get_all_batches_shuffled batch_size).1 =
        (List.range (N / batch_size)).map (fun i =>
          { acts := tensorIndex b.actions
              ((sel.drop (i * batch_size)).take batch_size)
            probs := tensorIndex b.log_probs
              ((sel.drop (i * batch_size)).take batch_size)
            obs := tensorIndex b.states
              ((sel.drop (i * batch_size)).take batch_size)
            vals := tensorIndex b.values
              ((sel.drop (i * batch_size)).take batch_size)
            adv := tensorIndex b.advantages
              ((sel.drop (i * batch_size)).take batch_size) }) := by
  have hidxPerm : b.shuffledIdx.Perm (List.range N) := by
    rw [ExperienceBuffer.shuffledIdx, hr]; exact npShuffle_perm _ _
  have hidxLen : b.shuffledIdx.length = N := by
    simpa using hidxPerm.length_eq
  have hidxNodup : b.shuffledIdx.Nodup :=
    hidxPerm.symm.nodup (List.nodup_range N)
  have hmul : N / batch_size * batch_size ≤ N := Nat.div_mul_le_self N batch_size
  have hXlen : ∀ X : List T, (tensorIndex X b.shuffledIdx).length = N := by
    intro X; simp [tensorIndex, hidxLen]
  have hfield : ∀ (X : List T) (i : Nat), i < N / batch_size →
      (((tensorIndex X b.shuffledIdx).drop (i * batch_size)).take
        batch_size).length = batch_size := by
    intro X i hi
    have h2 : (i + 1) * batch_size ≤ N / batch_size * batch_size :=
      Nat.mul_le_mul_right _ hi
    rw [Nat.succ_mul] at h2
    rw [List.length_take, List.length_drop, hXlen]
    generalize i * batch_size = A at h2 ⊢
    generalize hB : N / batch_size * batch_size = B at h2
    omega
  refine ⟨?_, ?_, ?_⟩
  · simp [ExperienceBuffer.get_all_batches_shuffled, hXlen]
  · intro mb hmb
    simp only [ExperienceBuffer.get_all_batches_shuffled, List.mem_map,
      List.mem_range, hXlen] at hmb
    obtain ⟨i, hi, rfl⟩ := hmb
    exact ⟨hfield _ i hi, hfield _ i hi, hfield _ i hi, hfield _ i hi,
      hfield _ i hi⟩
  · refine ⟨b.shuffledIdx.take (N / batch_size * batch_size),
      b.shuffledIdx.drop (N / batch_size * batch_size), ?_, ?_, ?_, ?_, ?_, ?_⟩
    · rw [List.take_append_drop]; exact hidxPerm
    · exact List.Nodup.sublist (List.take_sublist _ _) hidxNodup
    · exact List.length_take_of_le (by rw [hidxLen]; exact hmul)
    · rw [List.length_drop, hidxLen]
      have h1 : N / batch_size * batch_size + N % batch_size = N := by
        rw [Nat.mul_comm]; exact Nat.div_add_mod N batch_size
      generalize N / batch_size * batch_size = A at h1 ⊢
      omega
    · intro j hj k _ hmem
      have hsub : (((b.shuffledIdx.take (N / batch_size * batch_size)).drop
          (k * batch_size)).take batch_size).Sublist
          (b.shuffledIdx.take (N / batch_size * batch_size)) :=
        (List.take_sublist _ _).trans (List.drop_sublist _ _)
      have hnodupApp : (b.shuffledIdx.take (N / batch_size * batch_size) ++
          b.shuffledIdx.drop (N / batch_size * batch_size)).Nodup := by
        rw [List.take_append_drop]; exact hidxNodup
      rw [List.nodup_append] at hnodupApp
      exact hnodupApp.2.2 (hsub.subset hmem) hj
    · have hchunk : ∀ i, i < N / batch_size →
          ((b.shuffledIdx.take (N / batch_size * batch_size)).drop
            (i * batch_size)).take batch_size =
          (b.shuffledIdx.drop (i * batch_size)).take batch_size := by
        intro i hi
        rw [List.drop_take, List.take_take]
        congr 1
        have h2 : (i + 1) * batch_size ≤ N / batch_size * batch_size :=
          Nat.mul_le_mul_right _ hi
        rw [Nat.succ_mul] at h2
        generalize i * batch_size = A at h2 ⊢
        generalize hB : N / batch_size * batch_size = B at h2 ⊢
        omega
      simp only [ExperienceBuffer.get_all_batches_shuffled, hXlen]
      refine List.map_congr_left ?_
      intro i hi
      rw [List.mem_range] at hi
      rw [hchunk i hi]
      simp only [tensorIndex, List.map_take, List.map_drop]


/-- C4: two buffers constructed with the same capacity, seed and device and
given the same submission sequence produce the same shuffled index order,
and hence the same minibatch list, on the first call to
`get_all_batches_shuffled`. -/
theorem shuffle_deterministic {T : Type} [Inhabited T] (m s : Nat)
    (d : String) (subs : List (Submission T)) (bs : Nat)
    (b1 b2 : ExperienceBuffer T)
    (h1 : b1 = applyAll (ExperienceBuffer.init T m s d) subs)
    (h2 : b2 = applyAll (ExperienceBuffer.init T m s d) subs) :
    b1.shuffledIdx = b2.shuffledIdx ∧
    (b1.get_all_batches_shuffled bs).1 =
      (b2.get_all_batches_shuffled bs).1 := by
  subst h1; subst h2; exact ⟨rfl, rfl⟩


/-- Witness for C4 at a concrete seed, history and batch size. -/
theorem shuffle_deterministic_witness :
    c4Buf.shuffledIdx = c4Buf.shuffledIdx ∧
    (c4Buf.get_all_batches_shuffled 1).1 =
      (c4Buf.get_all_batches_shuffled 1).1 :=
  shuffle_deterministic 3 5 "cpu" [c4Sub] 1 c4Buf c4Buf rfl rfl


/-- C5: `clear` returns exactly the state of a freshly constructed buffer
with the same capacity, seed and device: all nine sequences empty and the
private generator reset to `RandomState(seed)`; since every buffer
operation is a function of this state, every subsequent operation sequence
behaves as on a new buffer. -/
theorem clear_equiv_fresh {T : Type} (b : ExperienceBuffer T) :
    b.clear = ExperienceBuffer.init T b.max_size b.seed b.device ∧
    b.clear.states = [] ∧ b.clear.actions = [] ∧ b.clear.log_probs = [] ∧
    b.clear.rewards = [] ∧ b.clear.next_states = [] ∧ b.clear.dones = [] ∧
    b.clear.truncated = [] ∧ b.clear.values = [] ∧
    b.clear.advantages = [] ∧ b.clear.max_size = b.max_size ∧
    b.clear.seed = b.seed ∧ b.clear.device = b.device ∧
    b.clear.rng = ⟨b.seed, 0⟩ :=
  ⟨rfl, rfl, rfl, rfl, rfl, rfl, rfl, rfl, rfl, rfl, rfl, rfl, rfl, rfl⟩


/-- Witness for C3: the buffer with five transitions, batch size 2. -/
theorem minibatch_partition_witness :
    (c3Buf.get_all_batches_shuffled 2).1.length = 5 / 2 ∧
    (∀ mb ∈ (c3Buf.get_all_batches_shuffled 2).1,
      mb.acts.length = 2 ∧ mb.probs.length = 2 ∧
      mb.obs.length = 2 ∧ mb.vals.length = 2 ∧
      mb.adv.length = 2) ∧
    ∃ sel rem : List Nat,
      (sel ++ rem).Perm (List.range 5) ∧ sel.Nodup ∧
      sel.length = 5 / 2 * 2 ∧
      rem.length = 5 % 2 ∧
      (∀ j ∈ rem, ∀ k, k < 5 / 2 →
        j ∉ (sel.drop (k * 2)).take 2) ∧
      (c3Buf.get_all_batches_shuffled 2).1 =
        (List.range (5 / 2)).map (fun i =>
          { acts := tensorIndex c3Buf.actions ((sel.drop (i * 2)).take 2)
            probs := tensorIndex c3Buf.log_probs ((sel.drop (i * 2)).take 2)
            obs := tensorIndex c3Buf.states ((sel.drop (i * 2)).take 2)
            vals := tensorIndex c3Buf.values ((sel.drop (i * 2)).take 2)
            adv := tensorIndex c3Buf.advantages ((sel.drop (i * 2)).take 2) }) :=
  minibatch_partition c3Buf 5 2 (by decide) (by decide) (by decide) (by decide)
    (by decide) (by decide) (by decide) (by decide) (by decide) (by decide)

/-- C6: loading the bookkeeping document written by save restores the
cumulative timesteps, epoch, cumulative model updates, and the running
statistics' mean, variance and count to their values at save time,
whatever state the loading Learner starts from. -/
theorem checkpoint_roundtrip (st st' : LearnerCkState) :
    (Learner.loadBookKeeping st'
        (Learner.saveBookKeeping st)).agent_cumulative_timesteps =
      st.agent_cumulative_timesteps ∧
    (Learner.loadBookKeeping st' (Learner.saveBookKeeping st)).epoch =
      st.epoch ∧
    (Learner.loadBookKeeping st'
        (Learner.saveBookKeeping st)).ppo_cumulative_model_updates =
      st.ppo_cumulative_model_updates ∧
    (Learner.loadBookKeeping st'
        (Learner.saveBookKeeping st)).return_stats.mean =
      st.return_stats.mean ∧
    (Learner.loadBookKeeping st'
        (Learner.saveBookKeeping st)).return_stats.var =
      st.return_stats.var ∧
    (Learner.loadBookKeeping st'
        (Learner.saveBookKeeping st)).return_stats.count =
      st.return_stats.count :=
  ⟨rfl, rfl, rfl, rfl, rfl, rfl⟩

/-- C10: `get_all_batches_shuffled` leaves all nine resident sequences,
the capacity, seed and device unchanged; the only mutated state is the
buffer-private generator, advanced by exactly the draws of one shuffle of
the resident indices; and when the batch size exceeds the resident length
(including an empty buffer) the batch list is empty. -/
theorem gabs_frame {T : Type} [Inhabited T] (b : ExperienceBuffer T)
    (bs : Nat) (hbs : 1 ≤ bs) :
    (b.get_all_batches_shuffled bs).2.states = b.states ∧
    (b.get_all_batches_shuffled bs).2.actions = b.actions ∧
    (b.get_all_batches_shuffled bs).2.log_probs = b.log_probs ∧
    (b.get_all_batches_shuffled bs).2.rewards = b.rewards ∧
    (b.get_all_batches_shuffled bs).2.next_states = b.next_states ∧
    (b.get_all_batches_shuffled bs).2.dones = b.dones ∧
    (b.get_all_batches_shuffled bs).2.truncated = b.truncated ∧
    (b.get_all_batches_shuffled bs).2.values = b.values ∧
    (b.get_all_batches_shuffled bs).2.advantages = b.advantages ∧
    (b.get_all_batches_shuffled bs).2.max_size = b.max_size ∧
    (b.get_all_batches_shuffled bs).2.seed = b.seed ∧
    (b.get_all_batches_shuffled bs).2.device = b.device ∧
    (b.get_all_batches_shuffled bs).2.rng =
      ⟨b.rng.seed, b.rng.counter + (b.rewards.length - 1)⟩ ∧
    (b.rewards.length < bs → (b.get_all_batches_shuffled bs).1 = []) := by
  refine ⟨rfl, rfl, rfl, rfl, rfl, rfl, rfl, rfl, rfl, rfl, rfl, rfl, ?_, ?_⟩
  · show (npShuffle b.rng (List.range b.rewards.length)).1 = _
    rw [npShuffle_rng]
    simp
  · intro h
    have hlen : (tensorIndex b.actions b.shuffledIdx).length =
        b.rewards.length := by
      simp [tensorIndex, ExperienceBuffer.shuffledIdx, npShuffle_length]
    simp [ExperienceBuffer.get_all_batches_shuffled, hlen,
      Nat.div_eq_of_lt h]

/-- Witness for C10: an empty buffer and batch size 1. -/
theorem gabs_frame_witness :
    ((ExperienceBuffer.init Nat 2 0 "cpu").get_all_batches_shuffled
        1).2.states = (ExperienceBuffer.init Nat 2 0 "cpu").states ∧
    ((ExperienceBuffer.init Nat 2 0 "cpu").get_all_batches_shuffled
        1).2.actions = (ExperienceBuffer.init Nat 2 0 "cpu").actions ∧
    ((ExperienceBuffer.init Nat 2 0 "cpu").get_all_batches_shuffled
        1).2.log_probs = (ExperienceBuffer.init Nat 2 0 "cpu").log_probs ∧
    ((ExperienceBuffer.init Nat 2 0 "cpu").get_all_batches_shuffled
        1).2.rewards = (ExperienceBuffer.init Nat 2 0 "cpu").rewards ∧
    ((ExperienceBuffer.init Nat 2 0 "cpu").get_all_batches_shuffled
        1).2.next_states = (ExperienceBuffer.init Nat 2 0 "cpu").next_states ∧
    ((ExperienceBuffer.init Nat 2 0 "cpu").get_all_batches_shuffled
        1).2.dones = (ExperienceBuffer.init Nat 2 0 "cpu").dones ∧
    ((ExperienceBuffer.init Nat 2 0 "cpu").get_all_batches_shuffled
        1).2.truncated = (ExperienceBuffer.init Nat 2 0 "cpu").truncated ∧
    ((ExperienceBuffer.init Nat 2 0 "cpu").get_all_batches_shuffled
        1).2.values = (ExperienceBuffer.init Nat 2 0 "cpu").values ∧
    ((ExperienceBuffer.init Nat 2 0 "cpu").get_all_batches_shuffled
        1).2.advantages = (ExperienceBuffer.init Nat 2 0 "cpu").advantages ∧
    ((ExperienceBuffer.init Nat 2 0 "cpu").get_all_batches_shuffled
        1).2.max_size = (ExperienceBuffer.init Nat 2 0 "cpu").max_size ∧
    ((ExperienceBuffer.init Nat 2 0 "cpu").get_all_batches_shuffled
        1).2.seed = (ExperienceBuffer.init Nat 2 0 "cpu").seed ∧
    ((ExperienceBuffer.init Nat 2 0 "cpu").get_all_batches_shuffled
        1).2.device = (ExperienceBuffer.init Nat 2 0 "cpu").device ∧
    ((ExperienceBuffer.init Nat 2 0 "cpu").get_all_batches_shuffled
        1).2.rng =
      ⟨(ExperienceBuffer.init Nat 2 0 "cpu").rng.seed,
        (ExperienceBuffer.init Nat 2 0 "cpu").rng.counter +
          ((ExperienceBuffer.init Nat 2 0 "cpu").rewards.length - 1)⟩ ∧
    ((ExperienceBuffer.init Nat 2 0 "cpu").rewards.length < 1 →
      ((ExperienceBuffer.init Nat 2 0 "cpu").get_all_batches_shuffled
        1).1 = []) :=
  gabs_frame (ExperienceBuffer.init Nat 2 0 "cpu") 1 (by decide)

/-! Retention of checkpoint directories (`Learner.save`). -/

theorem insertDir_append_of_lt (key : Nat) (l : List Nat)
    (h : ∀ x ∈ l, x < key) : insertDir key l = l ++ [key] := by
  induction l with
  | nil => rfl
  | cons d ds ih =>
    have hd : d < key := h d (by simp)
    rw [insertDir, if_neg (by omega), if_neg (by omega),
      ih (fun x hx => h x (by simp [hx]))]
    rfl

theorem insertDir_max_mem (key : Nat) (l : List Nat)
    (h : ∀ x ∈ l, x < key) : insertDir key (l ++ [key]) = l ++ [key] := by
  induction l with
  | nil => simp [insertDir]
  | cons d ds ih =>
    have hd : d < key := h d (by simp)
    rw [List.cons_append, insertDir, if_neg (by omega), if_neg (by omega),
      ih (fun x hx => h x (by simp [hx]))]

theorem saveRetention_inc (K : Nat) (hK : 1 ≤ K) (dirs : List Nat)
    (key : Nat) (h : ∀ x ∈ dirs, x < key) :
    saveRetention K dirs key = (dirs ++ [key]).drop (dirs.length + 1 - K) := by
  rw [saveRetention, insertDir_append_of_lt key dirs h]
  by_cases hcap : K < (dirs ++ [key]).length
  · rw [if_pos hcap]
    have hlen : (dirs ++ [key]).length = dirs.length + 1 := by simp
    rw [hlen]
    have hle : dirs.length + 1 - K ≤ dirs.length := by omega
    rw [List.drop_append_of_le_length hle]
    exact insertDir_max_mem key _
      (fun x hx => h x ((List.drop_sublist _ _).subset hx))
  · rw [if_neg hcap]
    have hlen : (dirs ++ [key]).length = dirs.length + 1 := by simp
    rw [hlen] at hcap
    rw [Nat.sub_eq_zero_of_le (by omega), List.drop_zero]

theorem saveRun_inc_aux (K : Nat) (hK : 1 ≤ K) (keys : List Nat) :
    ∀ p : List Nat, (p ++ keys).Pairwise (· < ·) →
    List.foldl (saveRetention K) (p.drop (p.length - K)) keys =
      (p ++ keys).drop ((p ++ keys).length - K) := by
  induction keys with
  | nil => intro p _; simp
  | cons k ks ih =>
    intro p hp
    have hall : ∀ x ∈ p.drop (p.length - K), x < k := by
      intro x hx
      have hxp : x ∈ p := (List.drop_sublist _ _).subset hx
      rw [List.pairwise_append] at hp
      exact hp.2.2 x hxp k (by simp)
    rw [List.foldl_cons, saveRetention_inc K hK _ k hall]
    have hstep : ((p.drop (p.length - K)) ++ [k]).drop
        ((p.drop (p.length - K)).length + 1 - K) =
        (p ++ [k]).drop ((p ++ [k]).length - K) := by
      rw [List.length_drop,
        ← @List.drop_append_of_le_length _ p [k] (p.length - K) (by omega),
        List.drop_drop]
      congr 1
      simp only [List.length_append, List.length_cons, List.length_nil]
      omega
    rw [hstep]
    have hp' : ((p ++ [k]) ++ ks).Pairwise (· < ·) := by
      rw [List.append_assoc]; exact hp
    have hfin := ih (p ++ [k]) hp'
    simp only [List.length_append, List.length_cons, List.length_nil,
      Nat.zero_add, List.append_assoc, List.singleton_append] at hfin ⊢
    rw [hfin]

/-- C7 counterexample: with `n_checkpoints_to_keep = 1` and two saves with
distinct keys 2 then 1 (K + m saves, m = 1), two checkpoint directories
remain instead of one: the save of key 1 first deletes its own freshly
created directory as the numerically smallest, then re-creates it, so
nothing beyond directory 1 is pruned and directory 2 also survives. -/
theorem retention_counterexample :
    saveRun 1 [2, 1] ≠ [1] ∧ (saveRun 1 [2, 1]).length = 2 := by decide

/-- C7 amended: when the `K + m` distinct checkpoint keys are saved in
strictly increasing numeric order (as the learner does — keys are
cumulative timestep counts) and `K ≥ 1`, exactly `K` checkpoint
directories remain and they are the `K` most recently saved keys. -/
theorem retention_keeps_last (K : Nat) (keys : List Nat) (hK : 1 ≤ K)
    (hinc : keys.Pairwise (· < ·)) (hlen : K < keys.length) :
    saveRun K keys = keys.drop (keys.length - K) ∧
    (saveRun K keys).length = K := by
  have h0 : saveRun K keys = keys.drop (keys.length - K) := by
    have := saveRun_inc_aux K hK keys [] (by simpa using hinc)
    simpa [saveRun] using this
  refine ⟨h0, ?_⟩
  rw [h0, List.length_drop]
  omega

/-- Witness for the amended C7: keep 2 of 4 checkpoints saved in
increasing order. -/
theorem retention_keeps_last_witness :
    saveRun 2 [10, 20, 30, 40] = [10, 20, 30, 40].drop (4 - 2) ∧
    (saveRun 2 [10, 20, 30, 40]).length = 2 :=
  retention_keeps_last 2 [10, 20, 30, 40] (by decide) (by decide) (by decide)

/-! Lookup laws for the report mapping. -/

theorem getKey_map_update (r : List (String × Metric)) (k : String)
    (v : Metric) (hany : r.any (fun p => p.1 = k) = true) :
    getKey (r.map (fun p => if p.1 = k then (k, v) else p)) k = some v := by
  induction r with
  | nil => simp at hany
  | cons p r ih =>
    by_cases hpk : p.1 = k
    · simp [getKey, hpk]
    · have hr : r.any (fun p => p.1 = k) = true := by
        simpa [List.any_cons, hpk] using hany
      simp [getKey, hpk, ih hr]

theorem getKey_map_update_other (r : List (String × Metric)) (k k' : String)
    (v : Metric) (hkk : k ≠ k') :
    getKey (r.map (fun p => if p.1 = k then (k, v) else p)) k' =
      getKey r k' := by
  induction r with
  | nil => rfl
  | cons p r ih =>
    by_cases hpk : p.1 = k
    · have h2 : ¬ (p.1 = k') := by rw [hpk]; exact hkk
      simp [getKey, hpk, hkk, h2, ih]
    · have h3 : ¬ (k' = k) := fun h => hkk h.symm
      by_cases hpk' : p.1 = k' <;> simp [getKey, hpk, hpk', h3, ih]

theorem getKey_append_same (r : List (String × Metric)) (k : String)
    (v : Metric) (hany : r.any (fun p => p.1 = k) = false) :
    getKey (r ++ [(k, v)]) k = some v := by
  induction r with
  | nil => simp [getKey]
  | cons p r ih =>
    simp only [List.any_cons, Bool.or_eq_false_iff,
      decide_eq_false_iff_not] at hany
    simp [getKey, hany.1, ih (by simpa using hany.2)]

theorem getKey_append_other (r : List (String × Metric)) (k k' : String)
    (v : Metric) (hkk : k ≠ k') :
    getKey (r ++ [(k, v)]) k' = getKey r k' := by
  induction r with
  | nil => simp [getKey, hkk]
  | cons p r ih => by_cases hpk : p.1 = k' <;> simp [getKey, hpk, ih]

theorem getKey_setKey_same (r : List (String × Metric)) (k : String)
    (v : Metric) : getKey (setKey r k v) k = some v := by
  rw [setKey]
  by_cases hany : r.any (fun p => p.1 = k) = true
  · rw [if_pos hany]
    exact getKey_map_update r k v hany
  · rw [if_neg hany]
    exact getKey_append_same r k v (Bool.eq_false_iff.mpr hany)

theorem getKey_setKey_other (r : List (String × Metric)) (k k' : String)
    (v : Metric) (hkk : k ≠ k') :
    getKey (setKey r k v) k' = getKey r k' := by
  rw [setKey]
  by_cases hany : r.any (fun p => p.1 = k) = true
  · rw [if_pos hany]
    exact getKey_map_update_other r k k' v hkk
  · rw [if_neg hany]
    exact getKey_append_other r k k' v hkk

/-- C8: the "Value Function Loss" entry of the dispatched metrics mapping
is the `np.nan` sentinel whenever `epoch = 0`, regardless of what the
update collaborator reported, and for every `epoch ≥ 1` it is exactly the
collaborator's reported value. -/
theorem first_epoch_vfl (epoch : Nat) (ppo_report : List (String × Metric))
    (cts sc : Nat) (et ct : Rat) (ar : Option Rat) (m : Metric)
    (hv : getKey ppo_report "Value Function Loss" = some m) :
    getKey (buildReport 0 ppo_report cts sc et ct ar)
      "Value Function Loss" = some Metric.nan ∧
    (1 ≤ epoch →
      getKey (buildReport epoch ppo_report cts sc et ct ar)
        "Value Function Loss" = some m) := by
  constructor
  · simp only [buildReport]
    rw [getKey_setKey_other _ _ _ _ (by decide),
      getKey_setKey_other _ _ _ _ (by decide),
      getKey_setKey_other _ _ _ _ (by decide),
      getKey_setKey_other _ _ _ _ (by decide),
      getKey_setKey_other _ _ _ _ (by decide),
      getKey_setKey_other _ _ _ _ (by decide),
      getKey_setKey_other _ _ _ _ (by decide),
      getKey_setKey_other _ _ _ _ (by decide)]
    rw [if_pos (by omega)]
    exact getKey_setKey_same _ _ _
  · intro he
    simp only [buildReport]
    rw [getKey_setKey_other _ _ _ _ (by decide),
      getKey_setKey_other _ _ _ _ (by decide),
      getKey_setKey_other _ _ _ _ (by decide),
      getKey_setKey_other _ _ _ _ (by decide),
      getKey_setKey_other _ _ _ _ (by decide),
      getKey_setKey_other _ _ _ _ (by decide),
      getKey_setKey_other _ _ _ _ (by decide),
      getKey_setKey_other _ _ _ _ (by decide)]
    rw [if_neg (by omega)]
    exact hv

/-- Witness for C8: a collaborator report carrying a concrete value
function loss, evaluated at epoch 1. -/
theorem first_epoch_vfl_witness :
    getKey (buildReport 0 [("Value Function Loss", Metric.val 3)] 10 5 2 1
      none) "Value Function Loss" = some Metric.nan ∧
    (1 ≤ 1 →
      getKey (buildReport 1 [("Value Function Loss", Metric.val 3)] 10 5 2 1
        none) "Value Function Loss" = some (Metric.val 3)) :=
  first_epoch_vfl 1 [("Value Function Loss", Metric.val 3)] 10 5 2 1 none
    (Metric.val 3) rfl

/-! Cleanup discipline of `Learner.learn`. -/

theorem cleanup_wandb {T : Type} (s : TrainState T) :
    (Learner.cleanup s).wandb_active = true →
      (Learner.cleanup s).wandb_finished = true := by
  intro h
  have h' : s.wandb_active = true := h
  simp [Learner.cleanup, h']

theorem cleanup_agent {T : Type} (s : TrainState T) :
    (Learner.cleanup s).agent_is_batched = true →
      (Learner.cleanup s).agent_released = true := by
  intro h
  have h' : s.agent_is_batched = true := h
  simp [Learner.cleanup, h']

/-- C9: whatever the epoch loop body does — finish normally at the
timestep limit or raise — `Learner.learn` returns a state (it never
re-raises): the experience buffer ends cleared, an attached tracking run
ends finished, a batched collector ends released; on an exception the
result is exactly the cleanup of the state at the raise point with the
trace appended to the console log (caught once, logged, not retried), and
on a normal exit the cleanup phase has also run (twice: once inside
`_learn`, once in the `finally`). -/
theorem learn_cleanup {T : Type} (body : TrainState T → LoopOutcome T)
    (s : TrainState T) :
    (Learner.learn body s).exp_buffer.states = [] ∧
    (Learner.learn body s).exp_buffer.actions = [] ∧
    (Learner.learn body s).exp_buffer.log_probs = [] ∧
    (Learner.learn body s).exp_buffer.rewards = [] ∧
    (Learner.learn body s).exp_buffer.next_states = [] ∧
    (Learner.learn body s).exp_buffer.dones = [] ∧
    (Learner.learn body s).exp_buffer.truncated = [] ∧
    (Learner.learn body s).exp_buffer.values = [] ∧
    (Learner.learn body s).exp_buffer.advantages = [] ∧
    ((Learner.learn body s).wandb_active = true →
      (Learner.learn body s).wandb_finished = true) ∧
    ((Learner.learn body s).agent_is_batched = true →
      (Learner.learn body s).agent_released = true) ∧
    (∀ e s', body s = LoopOutcome.error e s' →
      Learner.learn body s = Learner.cleanup (logTrace s' e) ∧
      e ∈ (Learner.learn body s).error_log) ∧
    (∀ s', body s = LoopOutcome.ok s' →
      Learner.learn body s = Learner.cleanup (Learner.cleanup s')) := by
  cases hbody : body s with
  | ok s' =>
    have hlearn : Learner.learn body s =
        Learner.cleanup (Learner.cleanup s') := by
      simp [Learner.learn, Learner._learnRun, hbody]
    rw [hlearn]
    refine ⟨rfl, rfl, rfl, rfl, rfl, rfl, rfl, rfl, rfl, cleanup_wandb _,
      cleanup_agent _, ?_, ?_⟩
    · intro e s'' he
      cases he
    · intro s'' hok
      injection hok with h
      rw [h]
  | error e s' =>
    have hlearn : Learner.learn body s =
        Learner.cleanup (logTrace s' e) := by
      simp [Learner.learn, Learner._learnRun, hbody]
    rw [hlearn]
    refine ⟨rfl, rfl, rfl, rfl, rfl, rfl, rfl, rfl, rfl, cleanup_wandb _,
      cleanup_agent _, ?_, ?_⟩
    · intro e' s'' he
      injection he with h1 h2
      subst h1
      subst h2
      exact ⟨rfl, by simp [Learner.cleanup, logTrace]⟩
    · intro s'' hok
      cases hok

/-- Witness for C9: a concrete raising body and starting state. -/
theorem learn_cleanup_witness :
    (Learner.learn c9Body c9State).exp_buffer.states = [] ∧
    (Learner.learn c9Body c9State).exp_buffer.actions = [] ∧
    (Learner.learn c9Body c9State).exp_buffer.log_probs = [] ∧
    (Learner.learn c9Body c9State).exp_buffer.rewards = [] ∧
    (Learner.learn c9Body c9State).exp_buffer.next_states = [] ∧
    (Learner.learn c9Body c9State).exp_buffer.dones = [] ∧
    (Learner.learn c9Body c9State).exp_buffer.truncated = [] ∧
    (Learner.learn c9Body c9State).exp_buffer.values = [] ∧
    (Learner.learn c9Body c9State).exp_buffer.advantages = [] ∧
    ((Learner.learn c9Body c9State).wandb_active = true →
      (Learner.learn c9Body c9State).wandb_finished = true) ∧
    ((Learner.learn c9Body c9State).agent_is_batched = true →
      (Learner.learn c9Body c9State).agent_released = true) ∧
    (∀ e s', c9Body c9State = LoopOutcome.error e s' →
      Learner.learn c9Body c9State = Learner.cleanup (logTrace s' e) ∧
      e ∈ (Learner.learn c9Body c9State).error_log) ∧
    (∀ s', c9Body c9State = LoopOutcome.ok s' →
      Learner.learn c9Body c9State =
        Learner.cleanup (Learner.cleanup s')) :=
  learn_cleanup c9Body c9State

end RlgymPPO
